import Mathlib

/-!
Verification of the GAJ scheduling server (`server/server.js`) and its
calendar front end (`src/Home.jsx`), via a shallow embedding in Lean 4.

The embedding translates the JavaScript source directly:
* request-body fields are modelled by `JSValue` (the subset of JavaScript
  values a JSON body can carry, plus `undefined` for absent fields) with
  JavaScript truthiness;
* the SQLite tables are modelled as lists of rows plus an autoincrement
  counter; `UPDATE ... WHERE id = ?` becomes a `List.map` over the rows and
  `this.changes` becomes the length of the filtered matching rows;
* the bcrypt comparison `bcrypt.compare` (external library) is an abstract
  oracle `bc : String → String → Bool` taking (provided, stored) in the
  argument order of `checkPassword(password, hash)`.
-/

namespace GAJ

/-- JavaScript values as they occur in parsed JSON request bodies:
`undefined` stands for an absent field (`typeof x === 'undefined'`). -/
inductive JSValue where
  | undefined
  | null
  | bool (b : Bool)
  | num (n : Int)
  | str (s : String)
deriving DecidableEq, Repr

/-- JavaScript truthiness for the values of `JSValue`
(`undefined`, `null`, `false`, `0`, `""` are falsy). -/
def JSValue.truthy : JSValue → Bool
  | .undefined => false
  | .null => false
  | .bool b => b
  | .num n => n != 0
  | .str s => s != ""

/-- Numeric value of a decimal digit character. -/
def digitVal (c : Char) : Nat := c.toNat - '0'.toNat

/-- The regex match `time.match(/^([0-2]\d):([0-5]\d)$/)` from `validateHour`
(server.js:190): succeeds exactly on five-character strings `HH:MM` whose
first hour digit is 0-2, second hour digit 0-9, minute digits 0-5 and 0-9,
returning the parsed `(hh, mm)` of `parseInt(match[1])`/`parseInt(match[2])`. -/
def matchHHMM (s : String) : Option (Nat × Nat) :=
  match s.data with
  | [h1, h2, c, m1, m2] =>
    if ('0' ≤ h1 ∧ h1 ≤ '2') ∧ ('0' ≤ h2 ∧ h2 ≤ '9') ∧ c = ':' ∧
       ('0' ≤ m1 ∧ m1 ≤ '5') ∧ ('0' ≤ m2 ∧ m2 ≤ '9') then
      some (10 * digitVal h1 + digitVal h2, 10 * digitVal m1 + digitVal m2)
    else none
  | _ => none

/-- `validateHour` (server.js:188-198): returns `false` for non-strings and
strings not matching the pattern; otherwise converts to minutes since
midnight and checks `360 <= minutes <= 1080` (06:00-18:00 inclusive). -/
def validateHour (time : JSValue) : Bool :=
  match time with
  | .str s =>
    match matchHHMM s with
    | none => false
    | some (hh, mm) =>
      let minutes := hh * 60 + mm
      decide (360 ≤ minutes ∧ minutes ≤ 1080)
  | _ => false

/-- C1: for every string matching the two-digit pattern HH:MM (hour digits
00-29, minutes 00-59), `validateHour` returns true iff the total minutes
since midnight lie in [360, 1080]; the boundary examples 06:00 and 18:00 are
accepted while 05:59 and 18:01 are rejected; and every non-matching string
and every non-string value yields false. -/
theorem validateHour_window :
    (∀ s hh mm, matchHHMM s = some (hh, mm) →
      (validateHour (.str s) = true ↔ 360 ≤ hh * 60 + mm ∧ hh * 60 + mm ≤ 1080))
  ∧ validateHour (.str "06:00") = true
  ∧ validateHour (.str "18:00") = true
  ∧ validateHour (.str "05:59") = false
  ∧ validateHour (.str "18:01") = false
  ∧ (∀ s, matchHHMM s = none → validateHour (.str s) = false)
  ∧ (∀ v : JSValue, (∀ s, v ≠ .str s) → validateHour v = false) := by
  refine ⟨?_, by decide, by decide, by decide, by decide, ?_, ?_⟩
  · intro s hh mm h
    simp [validateHour, h]
  · intro s h
    simp [validateHour, h]
  · intro v h
    cases v with
    | str s => exact absurd rfl (h s)
    | _ => rfl

/-- C1 witness: instantiating `validateHour_window` at the concrete string
"07:15", which the pattern parses as (7, 15). -/
theorem validateHour_window_witness : validateHour (.str "07:15") = true :=
  (validateHour_window.1 "07:15" 7 15 (by decide)).mpr (by decide)

/-- C4 counterexample: the claim `validateHour("9:30") = true` is false; the
regex requires a two-digit hour, so "9:30" is rejected. -/
theorem validateHour_single_digit_counterexample :
    ¬ (validateHour (.str "9:30") = true) := by decide

/-- C4 (amended): the time validator does not tolerate a single-digit hour:
`validateHour("9:30")` returns false, and every string the validator accepts
has exactly five characters (two-digit hour, colon, two-digit minute). -/
theorem validateHour_single_digit_rejected :
    validateHour (.str "9:30") = false
  ∧ (∀ s, validateHour (.str s) = true → s.length = 5) := by
  refine ⟨by decide, ?_⟩
  intro s h
  simp only [validateHour, matchHHMM] at h
  show s.data.length = 5
  match hd : s.data with
  | [a, b, c, d, e] => rfl
  | [] | [_] | [_, _] | [_, _, _] | [_, _, _, _]
  | _ :: _ :: _ :: _ :: _ :: _ :: _ => rw [hd] at h; simp at h

/-- C4 witness: the amended claim applied at the accepted string "12:00". -/
theorem validateHour_single_digit_rejected_witness : String.length "12:00" = 5 :=
  validateHour_single_digit_rejected.2 "12:00" (by decide)

/-- A row of the `users` table (server.js:38-46). `is_admin` and `approved`
are SQLite INTEGER columns holding 0/1. -/
structure User where
  id : Nat
  name : String
  email : String
  password : String
  cpf : String
  is_admin : Nat
  approved : Nat
deriving DecidableEq, Repr

/-- `SELECT ... FROM users WHERE email = ?` (server.js:261): the first row
whose email column equals the given value, if any. -/
def findUserByEmail (rows : List User) (email : String) : Option User :=
  rows.find? (fun u => u.email = email)

/-- Outcome of the POST /login handler, by status code: 404 user not found,
403 awaiting approval, 401 wrong password, 200 success with the public user
fields `{id, name, email, is_admin}` (server.js:261-302). -/
inductive LoginResult where
  | notFound
  | pendingApproval
  | invalidCredentials
  | success (id : Nat) (name email : String) (is_admin : Nat)
deriving DecidableEq, Repr

/-- `verifyPassword` (server.js:279-287): resolve true immediately when the
stored value equals the provided password (legacy plaintext); otherwise fall
back to the bcrypt comparison `checkPassword(provided, stored)`, modelled by
the oracle `bc` (errors resolving to false are one value of `bc`). -/
def verifyPassword (bc : String → String → Bool) (stored provided : String) : Bool :=
  if stored = provided then true else bc provided stored

/-- The body of the POST /login handler after a well-formed body with both
email and password passed the 400 check (server.js:261-302): look up by
email (404 if absent), then the approved flag (403 if 0), then the password
(401 on mismatch), else 200 with the public fields. -/
def login (bc : String → String → Bool) (rows : List User)
    (email password : String) : LoginResult :=
  match findUserByEmail rows email with
  | none => .notFound
  | some row =>
    if row.approved = 0 then .pendingApproval
    else if verifyPassword bc row.password password then
      .success row.id row.name row.email (if row.is_admin = 1 then 1 else 0)
    else .invalidCredentials

/-- C2: the login outcomes are decided in a fixed order — no row with the
email gives notFound; an unapproved row gives pendingApproval whatever the
password; an approved row with failing verification gives
invalidCredentials; and for an absent or unapproved user the outcome does
not depend on the password verifier at all (it is never consulted). -/
theorem login_checks_in_order (bc bc' : String → String → Bool)
    (rows : List User) (email password : String) :
    (findUserByEmail rows email = none → login bc rows email password = .notFound)
  ∧ (∀ u, findUserByEmail rows email = some u → u.approved = 0 →
      login bc rows email password = .pendingApproval)
  ∧ (∀ u, findUserByEmail rows email = some u → u.approved ≠ 0 →
      verifyPassword bc u.password password = false →
      login bc rows email password = .invalidCredentials)
  ∧ (findUserByEmail rows email = none ∨
      (∃ u, findUserByEmail rows email = some u ∧ u.approved = 0) →
      login bc rows email password = login bc' rows email password) := by
  refine ⟨?_, ?_, ?_, ?_⟩
  · intro h; simp [login, h]
  · intro u h ha; simp [login, h, ha]
  · intro u h ha hv; simp [login, h, ha, hv]
  · rintro (h | ⟨u, h, ha⟩)
    · simp [login, h]
    · simp [login, h, ha]

/-- C2 witness: an unapproved stored user receives pendingApproval even when
the supplied password is the stored one and the verifier would accept. -/
theorem login_checks_in_order_witness :
    login (fun _ _ => true) [⟨1, "Ana", "ana@x", "pw", "", 0, 0⟩] "ana@x" "pw"
      = .pendingApproval :=
  (login_checks_in_order (fun _ _ => true) (fun _ _ => false)
      [⟨1, "Ana", "ana@x", "pw", "", 0, 0⟩] "ana@x" "pw").2.1
    ⟨1, "Ana", "ana@x", "pw", "", 0, 0⟩ (by decide) rfl

/-- The stored-format sniff the source uses for the bootstrap admin row
(server.js:99, `pwd.startsWith('$2')`): a stored value looks like a bcrypt
digest iff it begins with the recognized prefix "$2". -/
def storedLooksHashed (s : String) : Bool :=
  match s.data with
  | '$' :: '2' :: _ => true
  | _ => false

/-- Claimed behaviour of C3, formalised from the spec's words (section 4.2):
select the comparison mode by the stored format — run the adaptive-hash
comparison when the stored value looks like a recognized hash-format prefix,
and fall back to exact string equality otherwise. To be compared with
`verifyPassword`, the definition taken from the source. -/
def verifyPasswordClaimed (bc : String → String → Bool)
    (stored provided : String) : Bool :=
  if storedLooksHashed stored then bc provided stored else stored = provided

/-- C3 counterexample: the source does not dispatch on the stored format.
Under a bcrypt comparator for which the digest does not verify against
itself (as with the real `bcrypt.compare`), presenting a stored bcrypt-style
digest as the password is accepted by the source's `verifyPassword` through
the equality branch, while the claimed prefix-dispatch rejects it — so a
stored bcrypt digest is not accepted only via the bcrypt comparison. -/
theorem verifyPassword_prefix_dispatch_counterexample :
    storedLooksHashed "$2b$10$abcdefg" = true
  ∧ verifyPassword (fun _ _ => false) "$2b$10$abcdefg" "$2b$10$abcdefg" = true
  ∧ verifyPasswordClaimed (fun _ _ => false) "$2b$10$abcdefg" "$2b$10$abcdefg"
      = false := by
  refine ⟨rfl, ?_, ?_⟩ <;> decide

/-- C3 (amended): the credential check does not select its mode by the
stored format; it first tries exact string equality (accepting legacy
plaintext and, incidentally, a stored digest presented verbatim), and only
when equality fails does it run the adaptive-hash (bcrypt) comparison. -/
theorem verifyPassword_equality_first (bc : String → String → Bool)
    (stored provided : String) :
    (stored = provided → verifyPassword bc stored provided = true)
  ∧ (stored ≠ provided → verifyPassword bc stored provided = bc provided stored) := by
  constructor
  · intro h; simp [verifyPassword, h]
  · intro h; simp [verifyPassword, h]

/-- C3 witness: the amended claim applied at the stored plaintext "abc" with
matching and non-matching provided passwords. -/
theorem verifyPassword_equality_first_witness :
    verifyPassword (fun _ _ => false) "abc" "abc" = true
  ∧ verifyPassword (fun _ _ => true) "abc" "xyz" = true :=
  ⟨(verifyPassword_equality_first (fun _ _ => false) "abc" "abc").1 rfl,
   (verifyPassword_equality_first (fun _ _ => true) "abc" "xyz").2 (by decide)⟩

/-- C10: the password check accepts whenever the provided password is
string-equal to the stored value; in that case its result does not depend on
the bcrypt oracle (bcrypt is not attempted); only when equality fails is the
result that of the bcrypt comparison; and an approved user whose stored
password is any string — in particular a bcrypt digest — authenticates by
presenting that stored string itself as the password. -/
theorem verifyPassword_equal_accepts (bc bc' : String → String → Bool)
    (rows : List User) (email : String) :
    (∀ s p, p = s → verifyPassword bc s p = true)
  ∧ (∀ s p, p = s → verifyPassword bc s p = verifyPassword bc' s p)
  ∧ (∀ s p, p ≠ s → verifyPassword bc s p = bc p s)
  ∧ (∀ u, findUserByEmail rows email = some u → u.approved ≠ 0 →
      login bc rows email u.password =
        .success u.id u.name u.email (if u.is_admin = 1 then 1 else 0)) := by
  refine ⟨?_, ?_, ?_, ?_⟩
  · intro s p h; simp [verifyPassword, h]
  · intro s p h; simp [verifyPassword, h]
  · intro s p h; simp [verifyPassword, Ne.symm h]
  · intro u h ha; simp [login, h, ha, verifyPassword]

/-- C10 witness: an approved user whose stored password is a bcrypt-style
digest logs in by presenting the digest string, even under a bcrypt oracle
that rejects everything. -/
theorem verifyPassword_equal_accepts_witness :
    login (fun _ _ => false) [⟨2, "Bob", "bob@x", "$2b$10$h", "", 1, 1⟩]
      "bob@x" "$2b$10$h" = .success 2 "Bob" "bob@x" 1 :=
  (verifyPassword_equal_accepts (fun _ _ => false) (fun _ _ => false)
      [⟨2, "Bob", "bob@x", "$2b$10$h", "", 1, 1⟩] "bob@x").2.2.2
    ⟨2, "Bob", "bob@x", "$2b$10$h", "", 1, 1⟩ (by decide) (by decide)

/-- The `users` table together with its AUTOINCREMENT counter: `nextId` is
the id the next INSERT will assign (`this.lastID`). -/
structure UsersDB where
  rows : List User
  nextId : Nat
deriving DecidableEq, Repr

/-- Outcome of the PUT /users/approve handler (server.js:340-355): 404 when
`this.changes === 0`, 200 success otherwise (the 400 missing-id branch is
not modelled since the claim supplies an id). -/
inductive ApproveResult where
  | notFound
  | ok
deriving DecidableEq, Repr

/-- PUT /users/approve (server.js:345-352): run
`UPDATE users SET approved = 1 WHERE id = ?`, then report 404 iff the
update matched no row (`this.changes === 0`), else success. The UPDATE is
the row-wise map; `this.changes` is the number of rows matching the WHERE
clause (SQLite counts a row set to its current value as changed). -/
def approveUser (db : UsersDB) (id : Nat) : ApproveResult × UsersDB :=
  let rows := db.rows.map (fun u => if u.id = id then { u with approved := 1 } else u)
  let changes := (db.rows.filter (fun u => u.id = id)).length
  if changes = 0 then (.notFound, { db with rows := rows })
  else (.ok, { db with rows := rows })

/-- C5: approving an existing id reports success and leaves every row with
that id approved; approving an absent id reports notFound and changes
nothing; and approve is idempotent — a second approve of the same id
reports success again and leaves the state of the first call unchanged. -/
theorem approveUser_sets_flag_idempotent (db : UsersDB) (id : Nat) :
    ((∃ u ∈ db.rows, u.id = id) →
      (approveUser db id).1 = .ok ∧
      ∀ u ∈ (approveUser db id).2.rows, u.id = id → u.approved = 1)
  ∧ ((∀ u ∈ db.rows, u.id ≠ id) →
      (approveUser db id).1 = .notFound ∧ (approveUser db id).2 = db)
  ∧ ((∃ u ∈ db.rows, u.id = id) →
      (approveUser (approveUser db id).2 id).1 = .ok)
  ∧ (approveUser (approveUser db id).2 id).2 = (approveUser db id).2 := by
  have hid : ∀ u : User, (if u.id = id then { u with approved := 1 } else u).id = u.id := by
    intro u; by_cases h : u.id = id <;> simp [h]
  have hff : ∀ u : User,
      (if u.id = id then { u with approved := 1 } else u).id = id →
      ({ (if u.id = id then { u with approved := 1 } else u) with approved := 1 })
        = (if u.id = id then { u with approved := 1 } else u) := by
    intro u h; rw [hid] at h; simp [h]
  have hchanges : ∀ l : List User,
      ((l.map (fun u => if u.id = id then { u with approved := 1 } else u)).filter
        (fun u => u.id = id)).length = (l.filter (fun u => u.id = id)).length := by
    intro l
    induction l with
    | nil => rfl
    | cons a t ih =>
      by_cases h : a.id = id <;> simp [h, List.filter, hid, ih]
  have hex : ∀ l : List User, (∃ u ∈ l, u.id = id) →
      (l.filter (fun u => u.id = id)).length ≠ 0 := by
    intro l ⟨u, hu, hid'⟩ hlen
    rw [List.length_eq_zero] at hlen
    have := List.filter_eq_nil_iff.mp hlen u hu
    simp [hid'] at this
  have hrows : ∀ d : UsersDB, (approveUser d id).2.rows
      = d.rows.map (fun u => if u.id = id then { u with approved := 1 } else u) := by
    intro d; simp only [approveUser]; split <;> rfl
  have hnext : ∀ d : UsersDB, (approveUser d id).2.nextId = d.nextId := by
    intro d; simp only [approveUser]; split <;> rfl
  have heq : ∀ d d' : UsersDB, d.rows = d'.rows → d.nextId = d'.nextId → d = d' := by
    intro d d' h1 h2; cases d; cases d'; simp_all
  refine ⟨?_, ?_, ?_, ?_⟩
  · intro h
    refine ⟨by simp [approveUser, hex db.rows h], ?_⟩
    intro u hu hid'
    rw [hrows] at hu
    obtain ⟨v, hv, hvu⟩ := List.mem_map.mp hu
    rw [← hvu] at hid' ⊢
    rw [hid] at hid'
    simp [hid']
  · intro h
    have hnil : db.rows.filter (fun u => u.id = id) = [] :=
      List.filter_eq_nil_iff.mpr (by intro u hu; simp [h u hu])
    have hmap : db.rows.map (fun u => if u.id = id then { u with approved := 1 } else u)
        = db.rows := by
      conv_rhs => rw [← List.map_id db.rows]
      exact List.map_congr_left (by intro u hu; simp [h u hu])
    refine ⟨by simp [approveUser, hnil], ?_⟩
    refine heq _ _ ?_ (hnext db)
    rw [hrows, hmap]
  · intro h
    have hne : ((approveUser db id).2.rows.filter (fun u => u.id = id)).length ≠ 0 := by
      rw [hrows, hchanges]; exact hex db.rows h
    generalize hdb1 : (approveUser db id).2 = db1 at hne
    simp only [approveUser]
    rw [if_neg hne]
  · refine heq _ _ ?_ (by rw [hnext, hnext])
    rw [hrows, hrows, List.map_map]
    exact List.map_congr_left (by
      intro u _
      by_cases h : u.id = id <;> simp [Function.comp, h])

/-- C5 witness: approving the sole user with id 1 reports success, the row
ends approved, and a second approve leaves the state unchanged. -/
theorem approveUser_sets_flag_idempotent_witness :
    (approveUser ⟨[⟨1, "Ana", "ana@x", "pw", "", 0, 0⟩], 2⟩ 1).1 = .ok
  ∧ (approveUser (approveUser ⟨[⟨1, "Ana", "ana@x", "pw", "", 0, 0⟩], 2⟩ 1).2 1).2
      = (approveUser ⟨[⟨1, "Ana", "ana@x", "pw", "", 0, 0⟩], 2⟩ 1).2 :=
  ⟨((approveUser_sets_flag_idempotent ⟨[⟨1, "Ana", "ana@x", "pw", "", 0, 0⟩], 2⟩ 1).1
      ⟨⟨1, "Ana", "ana@x", "pw", "", 0, 0⟩, by decide, rfl⟩).1,
   (approveUser_sets_flag_idempotent ⟨[⟨1, "Ana", "ana@x", "pw", "", 0, 0⟩], 2⟩ 1).2.2.2⟩

/-- The parsed body of POST /users (server.js:404-451): the form's string
fields, `none` for an absent field; the optional approved/is_admin flags are
arbitrary JSON values compared strictly against `1` and `'1'`. -/
structure RegisterBody where
  name : Option String
  email : Option String
  password : Option String
  cpf : Option String
  approved : Option JSValue
  is_admin : Option JSValue
deriving DecidableEq, Repr

/-- JavaScript truthiness of a possibly-absent string field (`!body.name`
is true when the field is absent or the empty string). -/
def truthyStr : Option String → Bool
  | some s => s != ""
  | none => false

/-- Outcome of POST /users: 400 missing fields, 409 duplicate email,
201 created with the new row's id. -/
inductive CreateUserResult where
  | validationError
  | duplicateEmail
  | created (id : Nat)
deriving DecidableEq, Repr

/-- The optional flags of POST /users (server.js:426-427):
`body.approved === 1 || body.approved === '1' ? 1 : 0`. -/
def flagValue (v : Option JSValue) : Nat :=
  if v = some (.num 1) ∨ v = some (.str "1") then 1 else 0

/-- POST /users (server.js:404-451): 400 when name, email or password is
missing or falsy; 409 when a row with the same email already exists;
otherwise insert `(name, email, hash(password), cpf || '', approvedFlag,
adminFlag)` under the next AUTOINCREMENT id. `hash` is the bcrypt hashing
oracle (`hashPassword`). -/
def createUser (hash : String → String) (db : UsersDB) (body : RegisterBody) :
    CreateUserResult × UsersDB :=
  if ¬ (truthyStr body.name ∧ truthyStr body.email ∧ truthyStr body.password) then
    (.validationError, db)
  else
    match findUserByEmail db.rows (body.email.getD "") with
    | some _ => (.duplicateEmail, db)
    | none =>
      let row : User :=
        { id := db.nextId, name := body.name.getD "", email := body.email.getD "",
          password := hash (body.password.getD ""), cpf := body.cpf.getD "",
          is_admin := flagValue body.is_admin, approved := flagValue body.approved }
      (.created db.nextId, ⟨db.rows ++ [row], db.nextId + 1⟩)

/-- C6: after a successful creation, a second well-formed creation request
with the same email fails with duplicateEmail and inserts no row; a request
missing name, email or password fails with validationError and inserts no
row; and a registration that supplies no approved/is_admin flags stores the
new row with approved = 0 and is_admin = 0. -/
theorem createUser_duplicate_and_defaults (hash : String → String)
    (db : UsersDB) (b1 b2 : RegisterBody) :
    (∀ i db', createUser hash db b1 = (.created i, db') →
      truthyStr b2.name = true → truthyStr b2.password = true →
      b2.email = b1.email →
      createUser hash db' b2 = (.duplicateEmail, db'))
  ∧ (¬ (truthyStr b1.name ∧ truthyStr b1.email ∧ truthyStr b1.password) →
      createUser hash db b1 = (.validationError, db))
  ∧ (b1.approved = none → b1.is_admin = none →
      ∀ i db', createUser hash db b1 = (.created i, db') →
      ∃ row : User, db'.rows = db.rows ++ [row]
        ∧ row.approved = 0 ∧ row.is_admin = 0 ∧ i = db.nextId) := by
  have hinv : ∀ i db', createUser hash db b1 = (.created i, db') →
      (truthyStr b1.name ∧ truthyStr b1.email ∧ truthyStr b1.password)
      ∧ findUserByEmail db.rows (b1.email.getD "") = none
      ∧ i = db.nextId
      ∧ db' = ⟨db.rows ++
          [{ id := db.nextId, name := b1.name.getD "", email := b1.email.getD "",
             password := hash (b1.password.getD ""), cpf := b1.cpf.getD "",
             is_admin := flagValue b1.is_admin, approved := flagValue b1.approved }],
          db.nextId + 1⟩ := by
    intro i db' h
    by_cases hv : truthyStr b1.name ∧ truthyStr b1.email ∧ truthyStr b1.password
    · cases hf : findUserByEmail db.rows (b1.email.getD "") with
      | some u => simp [createUser, hv, hf] at h
      | none =>
        simp only [createUser, hf, if_neg (not_not_intro hv)] at h
        obtain ⟨h1, h2⟩ := Prod.mk.injEq .. ▸ h
        exact ⟨hv, rfl, (CreateUserResult.created.injEq .. ▸ h1).symm, h2.symm⟩
    · simp [createUser, hv] at h
  refine ⟨?_, ?_, ?_⟩
  · intro i db' h hn hp he
    obtain ⟨hv, hf, hi, hdb⟩ := hinv i db' h
    have hv2 : truthyStr b2.name ∧ truthyStr b2.email ∧ truthyStr b2.password := by
      refine ⟨hn, ?_, hp⟩
      rw [he]; exact hv.2.1
    have hrow : (⟨db.nextId, b1.name.getD "", b1.email.getD "",
        hash (b1.password.getD ""), b1.cpf.getD "",
        flagValue b1.is_admin, flagValue b1.approved⟩ : User) ∈ db'.rows := by
      rw [hdb]; simp
    cases hf2 : findUserByEmail db'.rows (b2.email.getD "") with
    | none =>
      exfalso
      have := List.find?_eq_none.mp hf2 _ hrow
      simp [he] at this
    | some u => simp [createUser, hv2, hf2]
  · intro h
    simp only [createUser]
    rw [if_pos h]
  · intro ha hadm i db' h
    obtain ⟨hv, hf, hi, hdb⟩ := hinv i db' h
    refine ⟨_, by rw [hdb], ?_, ?_, hi⟩
    · simp [ha, flagValue]
    · simp [hadm, flagValue]

/-- C6 witness: creating "a@x" into the empty directory succeeds with the
default flags 0/0, and a second creation with the same email is rejected
with duplicateEmail and no inserted row. -/
theorem createUser_duplicate_and_defaults_witness :
    createUser (fun s => s ++ "#") ⟨[⟨1, "A", "a@x", "pw#", "", 0, 0⟩], 2⟩
      ⟨some "B", some "a@x", some "pw2", none, none, none⟩
    = (.duplicateEmail, ⟨[⟨1, "A", "a@x", "pw#", "", 0, 0⟩], 2⟩) :=
  (createUser_duplicate_and_defaults (fun s => s ++ "#") ⟨[], 1⟩
      ⟨some "A", some "a@x", some "pw", none, none, none⟩
      ⟨some "B", some "a@x", some "pw2", none, none, none⟩).1
    1 ⟨[⟨1, "A", "a@x", "pw#", "", 0, 0⟩], 2⟩ (by decide) rfl rfl rfl

/-- A row of the `schedules` table (server.js:55-64); `online` is a SQLite
INTEGER column holding 0/1. -/
structure Schedule where
  id : Nat
  lawyer : String
  client : String
  process_number : String
  online : Nat
  date : String
  time : String
  notes : String
deriving DecidableEq, Repr

/-- The `schedules` table with its AUTOINCREMENT counter. -/
structure SchedDB where
  rows : List Schedule
  nextId : Nat
deriving DecidableEq, Repr

/-- The parsed body of PUT /schedules/:id — any JSON fields may be present;
the handler reads only `online` (`none` models an absent field, i.e.
`typeof body.online === 'undefined'`). -/
structure UpdateBody where
  lawyer : Option JSValue
  client : Option JSValue
  process_number : Option JSValue
  online : Option JSValue
  date : Option JSValue
  time : Option JSValue
  notes : Option JSValue
deriving DecidableEq, Repr

/-- Outcome of PUT /schedules/:id: 400 missing online, 404 unknown id,
200 success echoing `{id, online}`. -/
inductive UpdateResult where
  | validationError
  | notFound
  | ok (id : Nat) (online : Nat)
deriving DecidableEq, Repr

/-- PUT /schedules/:id (server.js:546-566): 400 when `body.online` is
undefined; otherwise normalize it to `body.online ? 1 : 0` and run
`UPDATE schedules SET online = ? WHERE id = ?`; 404 iff the update matched
no row (`this.changes === 0`), else 200 with the id and the new value. -/
def updateSchedule (db : SchedDB) (id : Nat) (body : UpdateBody) :
    UpdateResult × SchedDB :=
  match body.online with
  | none => (.validationError, db)
  | some v =>
    let onl := if v.truthy then 1 else 0
    let rows := db.rows.map (fun s => if s.id = id then { s with online := onl } else s)
    let changes := (db.rows.filter (fun s => s.id = id)).length
    if changes = 0 then (.notFound, { db with rows := rows })
    else (.ok id onl, { db with rows := rows })

/-- C7: when the patch lacks `online` the result is validationError with no
change; when the id is absent the result is notFound with no change; when
the id exists the handler reports success with the normalized 0/1 value, the
row count is preserved, each row keeps its id, lawyer, client,
process_number, date, time and notes, the matching rows' online becomes the
normalized value, non-matching rows keep their online; and the outcome
depends only on the patch's `online` field — every other field in the patch
body is ignored. -/
theorem updateSchedule_only_online (db : SchedDB) (id : Nat)
    (body body' : UpdateBody) :
    (body.online = none → updateSchedule db id body = (.validationError, db))
  ∧ (∀ v, body.online = some v → (∀ s ∈ db.rows, s.id ≠ id) →
      updateSchedule db id body = (.notFound, db))
  ∧ (∀ v, body.online = some v → (∃ s ∈ db.rows, s.id = id) →
      (updateSchedule db id body).1 = .ok id (if v.truthy then 1 else 0))
  ∧ (∀ v, body.online = some v →
      (updateSchedule db id body).2.rows.length = db.rows.length
      ∧ ∀ n (hn : n < db.rows.length)
          (hn' : n < (updateSchedule db id body).2.rows.length),
          let r := db.rows.get ⟨n, hn⟩
          let r' := (updateSchedule db id body).2.rows.get ⟨n, hn'⟩
          r'.id = r.id ∧ r'.lawyer = r.lawyer ∧ r'.client = r.client
          ∧ r'.process_number = r.process_number ∧ r'.date = r.date
          ∧ r'.time = r.time ∧ r'.notes = r.notes
          ∧ (r.id = id → r'.online = (if v.truthy then 1 else 0))
          ∧ (r.id ≠ id → r'.online = r.online))
  ∧ (body.online = body'.online →
      updateSchedule db id body = updateSchedule db id body') := by
  have hrows : ∀ v, body.online = some v → (updateSchedule db id body).2.rows
      = db.rows.map (fun s =>
          if s.id = id then { s with online := if v.truthy then 1 else 0 } else s) := by
    intro v hv; simp only [updateSchedule, hv]; split <;> rfl
  refine ⟨?_, ?_, ?_, ?_, ?_⟩
  · intro h; simp [updateSchedule, h]
  · intro v hv h
    have hnil : db.rows.filter (fun s => s.id = id) = [] :=
      List.filter_eq_nil_iff.mpr (by intro s hs; simp [h s hs])
    have hmap : db.rows.map (fun s =>
        if s.id = id then { s with online := if v.truthy then 1 else 0 } else s)
        = db.rows := by
      conv_rhs => rw [← List.map_id db.rows]
      exact List.map_congr_left (by intro s hs; simp [h s hs])
    simp [updateSchedule, hv, hnil, hmap]
  · intro v hv h
    have hne : (db.rows.filter (fun s => s.id = id)).length ≠ 0 := by
      intro hlen
      rw [List.length_eq_zero] at hlen
      obtain ⟨s, hs, hsid⟩ := h
      have := List.filter_eq_nil_iff.mp hlen s hs
      simp [hsid] at this
    simp only [updateSchedule, hv]
    rw [if_neg hne]
  · intro v hv
    rw [hrows v hv]
    refine ⟨by simp, ?_⟩
    intro n hn hn'
    simp only [List.get_eq_getElem, List.getElem_map]
    by_cases hsid : (db.rows.get ⟨n, hn⟩).id = id
    · simp [List.get_eq_getElem] at hsid
      simp [hsid]
    · simp [List.get_eq_getElem] at hsid
      simp [hsid]
  · intro h; simp only [updateSchedule, h]

/-- C7 witness: updating the online flag of the sole schedule row with a
truthy value succeeds and leaves every other column of the row intact. -/
theorem updateSchedule_only_online_witness :
    (updateSchedule ⟨[⟨1, "L", "C", "", 0, "2024-02-01", "10:00", "n"⟩], 2⟩ 1
      ⟨none, none, none, some (.bool true), none, none, none⟩).1 = .ok 1 1 :=
  (updateSchedule_only_online ⟨[⟨1, "L", "C", "", 0, "2024-02-01", "10:00", "n"⟩], 2⟩ 1
      ⟨none, none, none, some (.bool true), none, none, none⟩
      ⟨none, none, none, some (.bool true), none, none, none⟩).2.2.1
    (.bool true) rfl ⟨⟨1, "L", "C", "", 0, "2024-02-01", "10:00", "n"⟩, by decide, rfl⟩

/-- Auxiliary: `find?` over a list extended with one element finds that
element when nothing before it satisfies the predicate. -/
theorem find?_append_last {α : Type} (p : α → Bool) (l : List α) (a : α)
    (hl : ∀ x ∈ l, p x = false) (ha : p a = true) :
    (l ++ [a]).find? p = some a := by
  induction l with
  | nil => simp [List.find?, ha]
  | cons b t ih =>
    have hb := hl b (by simp)
    simp only [List.cons_append, List.find?, hb]
    exact ih (fun x hx => hl x (by simp [hx]))

/-- Outcome of POST /schedules: 400 missing fields, 400 invalid time window,
201 created with the new row's id (server.js:505-527). -/
inductive CreateSchedResult where
  | validationError
  | invalidTimeWindow
  | created (id : Nat)
deriving DecidableEq, Repr

/-- POST /schedules (server.js:505-527) for a body whose fields are the JSON
strings the form sends (a missing/empty string field is falsy, so the `!x`
check is `= ""`; `process_number` and `notes` may be absent): 400 when
lawyer, client, date or time is missing; 400 when `validateHour` rejects the
time; otherwise insert `(lawyer, client, process_number || '',
online ? 1 : 0, date, time, notes || '')` under the next AUTOINCREMENT id. -/
def createSchedule (db : SchedDB) (lawyer client date time : String)
    (process_number notes : Option String) (online : JSValue) :
    CreateSchedResult × SchedDB :=
  if lawyer = "" ∨ client = "" ∨ date = "" ∨ time = "" then (.validationError, db)
  else if ¬ validateHour (.str time) then (.invalidTimeWindow, db)
  else
    let row : Schedule :=
      { id := db.nextId, lawyer := lawyer, client := client,
        process_number := process_number.getD "",
        online := if online.truthy then 1 else 0,
        date := date, time := time, notes := notes.getD "" }
    (.created db.nextId, ⟨db.rows ++ [row], db.nextId + 1⟩)

/-- GET /schedules/:id for a numeric id (server.js:478-489):
`SELECT * FROM schedules WHERE id = ?`. -/
def getScheduleById (db : SchedDB) (id : Nat) : Option Schedule :=
  db.rows.find? (fun s => s.id = id)

/-- C9: creating a schedule with lawyer, client, date present and a valid
time, then fetching it by the returned id, yields a record whose lawyer,
client, date and time equal the inputs, whose process_number and notes equal
the inputs (or "" when omitted), and whose online field is 1 if the supplied
value was truthy and 0 otherwise. The freshness hypothesis states the
AUTOINCREMENT invariant that no existing row carries the next id. -/
theorem createSchedule_roundtrip (db : SchedDB) (lawyer client date time : String)
    (process_number notes : Option String) (online : JSValue)
    (hfresh : ∀ s ∈ db.rows, s.id ≠ db.nextId)
    (hl : lawyer ≠ "") (hc : client ≠ "") (hd : date ≠ "")
    (ht : validateHour (.str time) = true) :
    (createSchedule db lawyer client date time process_number notes online).1
      = .created db.nextId
  ∧ getScheduleById
      (createSchedule db lawyer client date time process_number notes online).2
      db.nextId
    = some { id := db.nextId, lawyer := lawyer, client := client,
             process_number := process_number.getD "",
             online := if online.truthy then 1 else 0,
             date := date, time := time, notes := notes.getD "" } := by
  have htne : time ≠ "" := by
    intro h; rw [h] at ht; exact absurd ht (by decide)
  have hcond : ¬ (lawyer = "" ∨ client = "" ∨ date = "" ∨ time = "") := by
    simp [hl, hc, hd, htne]
  constructor
  · simp only [createSchedule, if_neg hcond]
    rw [if_neg (not_not_intro ht)]
  · simp only [createSchedule, if_neg hcond]
    rw [if_neg (not_not_intro ht)]
    apply find?_append_last
    · intro x hx; simp [hfresh x hx]
    · simp

/-- C9 witness: the round trip evaluated on a concrete creation into the
empty table, with process_number and notes omitted and a truthy online. -/
theorem createSchedule_roundtrip_witness :
    getScheduleById
      (createSchedule ⟨[], 1⟩ "L" "C" "2024-02-01" "10:00" none none (.bool true)).2 1
    = some ⟨1, "L", "C", "", 1, "2024-02-01", "10:00", ""⟩ :=
  (createSchedule_roundtrip ⟨[], 1⟩ "L" "C" "2024-02-01" "10:00" none none (.bool true)
    (by simp) (by decide) (by decide) (by decide) (by decide)).2

/-- Gregorian leap-year rule, as used by the JavaScript Date object. -/
def isLeapYear (y : Nat) : Bool :=
  (y % 4 = 0 && y % 100 != 0) || y % 400 = 0

/-- Day count of the 0-indexed month `m` of year `y`: the value the source
obtains as `new Date(year, month + 1, 0).getDate()` (Home.jsx:59), i.e. the
"day 0 of the next month" trick, for months 0-11. -/
def daysInMonth (y m : Nat) : Nat :=
  if m = 1 then (if isLeapYear y then 29 else 28)
  else if m = 3 ∨ m = 5 ∨ m = 8 ∨ m = 10 then 30
  else 31

/-- Days in the months of year `y` strictly before the 0-indexed month `m`. -/
def daysBeforeMonth (y m : Nat) : Nat :=
  (List.range m).foldl (fun acc i => acc + daysInMonth y i) 0

/-- Weekday (0 = Sunday .. 6 = Saturday) of day `d` of the 0-indexed month
`m` of year `y` in the proleptic Gregorian calendar: the value of
`new Date(year, month, d).getDay()` (Home.jsx:56) for years ≥ 1. Day 1 of
month 0 of year 1 is a Monday, hence the `+ 1` calibration. -/
def dayOfWeek (y m d : Nat) : Nat :=
  (365 * (y - 1) + (y - 1) / 4 + (y - 1) / 400 - (y - 1) / 100
    + daysBeforeMonth y m + (d - 1) + 1) % 7

/-- `pad` (Home.jsx:10-12): left-pad a number below 10 with a zero. -/
def pad (n : Nat) : String := if n < 10 then "0" ++ toString n else toString n

/-- `formatDateYYYYMMDD` (Home.jsx:15-17) on the date (y, m 0-indexed, d):
the year, the 1-indexed padded month and the padded day, dash-separated. -/
def formatDateYYYYMMDD (y m d : Nat) : String :=
  toString y ++ "-" ++ pad (m + 1) ++ "-" ++ pad d

/-- A populated calendar cell `{dayNumber, dateStr, hasEvents}`
(Home.jsx:74). -/
structure Cell where
  dayNumber : Nat
  dateStr : String
  hasEvents : Bool
deriving DecidableEq, Repr

/-- `startDayIndex` (Home.jsx:55-56): weekday of the first of the month. -/
def startDayIndex (y m : Nat) : Nat := dayOfWeek y m 1

/-- `totalCells` (Home.jsx:62): start offset plus the days of the month. -/
def totalCellsRaw (y m : Nat) : Nat := startDayIndex y m + daysInMonth y m

/-- `weeks = Math.ceil(totalCells / 7)` (Home.jsx:63). -/
def weeks (y m : Nat) : Nat := (totalCellsRaw y m + 6) / 7

/-- `cells = weeks * 7` (Home.jsx:64). -/
def cellsCount (y m : Nat) : Nat := weeks y m * 7

/-- `calendarCells` (Home.jsx:67-75): one entry per grid index; `none` for
the placeholder cells (the JS guard `dayNumber < 1 || dayNumber >
daysInMonth` with `dayNumber = idx - startDayIndex + 1` over integers is,
over naturals, `idx < startDayIndex ∨ startDayIndex + daysInMonth ≤ idx`);
a populated cell carries the 1-based day number, its formatted date string,
and `hasEvents = schedules.some(s => s.date === dateStr)` on the list of
schedule date strings. -/
def calendarCells (y m : Nat) (scheduleDates : List String) : List (Option Cell) :=
  (List.range (cellsCount y m)).map (fun idx =>
    if idx < startDayIndex y m ∨ startDayIndex y m + daysInMonth y m ≤ idx then none
    else
      let dayNumber := idx - startDayIndex y m + 1
      let dateStr := formatDateYYYYMMDD y m dayNumber
      some { dayNumber := dayNumber, dateStr := dateStr,
             hasEvents := scheduleDates.any (fun d => d = dateStr) })

/-- Auxiliary: `any` of an equality test is membership. -/
theorem any_eq_decide_mem (l : List String) (x : String) :
    (l.any fun d => d = x) = decide (x ∈ l) := by
  induction l with
  | nil => simp
  | cons a t ih =>
    simp only [List.any_cons, List.mem_cons, Bool.decide_or, ← ih]
    congr 1
    exact decide_eq_decide.mpr eq_comm

/-- C8: the grid has exactly `cellsCount` cells, which is the least multiple
of 7 at least `startDayIndex + daysInMonth`; the first `startDayIndex` cells
and the cells from `startDayIndex + daysInMonth` on are empty placeholders;
the populated cell at index `i` carries `dayNumber = i - startDayIndex + 1`,
its YYYY-MM-DD date string, and `hasEvents` true iff that string is among
the schedule dates; and for year 2024, month 1 (February) the first
populated cell is at weekday index 4 (Thursday), the month has 29 days, and
the grid has 35 cells — a multiple of 7 that is at least 33. -/
theorem calendarCells_grid (y m : Nat) (ds : List String) :
    (calendarCells y m ds).length = cellsCount y m
  ∧ 7 ∣ cellsCount y m
  ∧ totalCellsRaw y m ≤ cellsCount y m
  ∧ (∀ k, 7 ∣ k → totalCellsRaw y m ≤ k → cellsCount y m ≤ k)
  ∧ (∀ i (hi : i < (calendarCells y m ds).length),
      i < startDayIndex y m → (calendarCells y m ds)[i] = none)
  ∧ (∀ i (hi : i < (calendarCells y m ds).length),
      startDayIndex y m + daysInMonth y m ≤ i → (calendarCells y m ds)[i] = none)
  ∧ (∀ i (hi : i < (calendarCells y m ds).length),
      startDayIndex y m ≤ i → i < startDayIndex y m + daysInMonth y m →
      (calendarCells y m ds)[i] =
        some { dayNumber := i - startDayIndex y m + 1,
               dateStr := formatDateYYYYMMDD y m (i - startDayIndex y m + 1),
               hasEvents := decide
                 (formatDateYYYYMMDD y m (i - startDayIndex y m + 1) ∈ ds) })
  ∧ startDayIndex 2024 1 = 4 ∧ daysInMonth 2024 1 = 29
  ∧ cellsCount 2024 1 = 35 := by
  refine ⟨by simp [calendarCells], dvd_mul_left 7 (weeks y m), ?_, ?_, ?_, ?_, ?_,
    by decide, by decide, by decide⟩
  · simp only [cellsCount, weeks]; omega
  · intro k hk hle; simp only [cellsCount, weeks]; omega
  · intro i hi h
    simp only [calendarCells, List.getElem_map, List.getElem_range]
    rw [if_pos (Or.inl h)]
  · intro i hi h
    simp only [calendarCells, List.getElem_map, List.getElem_range]
    rw [if_pos (Or.inr h)]
  · intro i hi h1 h2
    simp only [calendarCells, List.getElem_map, List.getElem_range]
    rw [if_neg (by omega), any_eq_decide_mem]

/-- C8 witness: in the February 2024 grid the cell at index 4 (the first
populated one) is day 1 with date "2024-02-01" and has an event exactly
because "2024-02-01" is among the schedule dates. -/
theorem calendarCells_grid_witness :
    (calendarCells 2024 1 ["2024-02-01"]).get ⟨4, by decide⟩
      = some ⟨1, "2024-02-01", true⟩ := by
  have h := (calendarCells_grid 2024 1 ["2024-02-01"]).2.2.2.2.2.2.1 4
    (by decide) (by decide) (by decide)
  rw [List.get_eq_getElem, h]
  decide

end GAJ
